import Mathlib

/-!
Shallow embedding of the coupled-Hopf-oscillator CPG network from
`cpg_loconetwork.py`, together with the variant class bodies found in
`cpg_network_loco.py`, `ledlocotest.py` and the plain network of
`cpg_network.py`.  Floating-point values are modelled as real numbers;
NumPy arrays of length `n` (resp. `n × n`) are modelled as functions
`ℕ → ℝ` (resp. `ℕ → ℕ → ℝ`) that are `0` outside the index range, which
matches the `np.zeros` initialisation the code uses.  The wall-clock
field `last_update_time` is outside the embedding: `update(dt)` with an
explicit `dt` neither reads nor writes it.

The three mutually recursive methods `set_tripod_gait`, `set_wave_gait`
and `_update_phase_relationships` of `cpg_loconetwork.py` are embedded
with an explicit fuel (stack-depth) parameter: a call that exhausts every
fuel corresponds to a Python `RecursionError`.
-/

set_option maxHeartbeats 1000000

noncomputable section

open Classical

namespace CPG

/-- `self.current_gait` only ever holds the strings `"tripod"` or `"wave"`. -/
inductive Gait
  | tripod
  | wave

/-- `self.turning_direction` only ever holds `None`, `"right"` or `"left"`. -/
inductive TurnDir
  | left
  | right

/-- The instance fields of `CoupledOscillatorNetwork` in `cpg_loconetwork.py`
(shared by the variants in `cpg_network_loco.py` and `ledlocotest.py`). -/
structure Network where
  n : ℕ
  amplitude : ℝ
  base_frequency : ℝ
  omega : ℝ
  mu : ℝ
  state : ℕ → ℝ
  coupling_weights : ℕ → ℕ → ℝ
  phase_biases : ℕ → ℕ → ℝ
  frequencies : ℕ → ℝ
  amplitudes : ℕ → ℝ
  current_gait : Gait
  direction_phase : ℝ
  turning : Bool
  turning_direction : Option TurnDir
  turning_factor : ℝ

/-- Python float modulo `x % y`: `x - y * floor(x / y)`. -/
def pymod (x y : ℝ) : ℝ :=
  x - y * ((Int.floor (x / y) : ℤ) : ℝ)

/-- The coupling-weight matrix built by both gait setters: every
off-diagonal in-range entry is `coupling_strength`, all else `0`. -/
def gait_weights (n : ℕ) (cs : ℝ) : ℕ → ℕ → ℝ :=
  fun i j => if i < n ∧ j < n ∧ i ≠ j then cs else 0

/-- Tripod phase biases: `0 if (i % 2) == (j % 2) else np.pi` off-diagonal. -/
def tripod_phases (n : ℕ) : ℕ → ℕ → ℝ :=
  fun i j =>
    if i < n ∧ j < n ∧ i ≠ j then (if i % 2 = j % 2 then 0 else Real.pi) else 0

/-- Wave phase biases: `(2 * np.pi / n) * ((j - i) % n)` off-diagonal. -/
def wave_phases (n : ℕ) : ℕ → ℕ → ℝ :=
  fun i j =>
    if i < n ∧ j < n ∧ i ≠ j then
      2 * Real.pi / (n : ℝ) * ((((j : ℤ) - (i : ℤ)) % (n : ℤ) : ℤ) : ℝ)
    else 0

/-- The in-place loop of `_update_phase_relationships`:
`phase_biases[i, j] = (phase_biases[i, j] + direction_phase) % (2 * np.pi)`
for every off-diagonal in-range entry. -/
def shift_phases (n : ℕ) (dp : ℝ) (pb : ℕ → ℕ → ℝ) : ℕ → ℕ → ℝ :=
  fun i j =>
    if i < n ∧ j < n ∧ i ≠ j then pymod (pb i j + dp) (2 * Real.pi) else pb i j

/-- The common straight-line part of `set_tripod_gait` / `set_wave_gait`
(identical in both methods): record the gait, reset the direction when
requested, and rebuild both matrices. -/
def apply_gait (g : Gait) (cs : ℝ) (rd : Bool) (nw : Network) : Network :=
  { nw with
    current_gait := g
    direction_phase := if rd then 0 else nw.direction_phase
    coupling_weights := gait_weights nw.n cs
    phase_biases :=
      match g with
      | Gait.tripod => tripod_phases nw.n
      | Gait.wave => wave_phases nw.n }

mutual

/-- `cpg_loconetwork.py` / `ledlocotest.py` `set_tripod_gait` and
`set_wave_gait`, fused over the gait tag (their bodies are identical up to
the phase formula).  After rebuilding the matrices they tail-call
`_update_phase_relationships` whenever `direction_phase != 0`.  The first
argument is the remaining call-stack fuel; `none` models a Python
`RecursionError`. -/
def set_gait_fuel : ℕ → Gait → ℝ → Bool → Network → Option Network
  | 0, _, _, _, _ => none
  | fuel + 1, g, cs, rd, nw =>
    let nw1 := apply_gait g cs rd nw
    if nw1.direction_phase ≠ 0 then update_phase_relationships_fuel fuel nw1
    else some nw1

/-- `cpg_loconetwork.py` / `ledlocotest.py` `_update_phase_relationships`:
re-derive the base gait with `reset_direction=False`, then, if
`direction_phase != 0`, add it to every off-diagonal phase bias mod `2π`. -/
def update_phase_relationships_fuel : ℕ → Network → Option Network
  | 0, _ => none
  | fuel + 1, nw =>
    (set_gait_fuel fuel nw.current_gait 1 false nw).map fun nw1 =>
      if nw1.direction_phase ≠ 0 then
        { nw1 with
          phase_biases := shift_phases nw1.n nw1.direction_phase nw1.phase_biases }
      else nw1

end

/-- `cpg_loconetwork.py` / `ledlocotest.py` `set_backward`:
`direction_phase = np.pi if backward else 0.0`, then
`_update_phase_relationships()`. -/
def set_backward_fuel : ℕ → Bool → Network → Option Network
  | 0, _, _ => none
  | fuel + 1, backward, nw =>
    update_phase_relationships_fuel fuel
      { nw with direction_phase := if backward then Real.pi else 0 }

/-- The initial state vector: `x = 0.1`, `y = 0` per oscillator
(`state[2*i] = 0.1` after `np.zeros(2*n)`). -/
def init_state (n : ℕ) : ℕ → ℝ :=
  fun k => if k < 2 * n ∧ k % 2 = 0 then 0.1 else 0

/-- The object built by `__init__` just before its final
`self.set_tripod_gait()` call. -/
def init_base (n : ℕ) (amplitude frequency mu : ℝ) : Network :=
  { n := n
    amplitude := amplitude
    base_frequency := frequency
    omega := 2 * Real.pi * frequency
    mu := mu
    state := init_state n
    coupling_weights := fun _ _ => 0
    phase_biases := fun _ _ => 0
    frequencies := fun i => if i < n then frequency else 0
    amplitudes := fun i => if i < n then amplitude else 0
    current_gait := Gait.tripod
    direction_phase := 0
    turning := false
    turning_direction := none
    turning_factor := 0 }

/-- Full `__init__`: the base record followed by `set_tripod_gait()`
(with its default `coupling_strength=1.0`, `reset_direction=True`). -/
def init_fuel (fuel n : ℕ) (amplitude frequency mu : ℝ) : Option Network :=
  set_gait_fuel fuel Gait.tripod 1 true (init_base n amplitude frequency mu)

/-- `turn_right`: clamp the factor into `[0, 1]`, record the turn state,
then decrease amplitude/frequency on even ("right") indices and increase
them on odd ("left") indices. -/
def turn_right (turning_factor : ℝ) (nw : Network) : Network :=
  let tf := max 0 (min 1 turning_factor)
  { nw with
    turning := true
    turning_direction := some TurnDir.right
    turning_factor := tf
    amplitudes := fun i =>
      if i < nw.n then
        (if i % 2 = 0 then nw.amplitude * (1 - tf * 0.5)
         else nw.amplitude * (1 + tf * 0.5))
      else nw.amplitudes i
    frequencies := fun i =>
      if i < nw.n then
        (if i % 2 = 0 then nw.base_frequency * (1 - tf * 0.3)
         else nw.base_frequency * (1 + tf * 0.3))
      else nw.frequencies i }

/-- `turn_left`: the mirror image of `turn_right`. -/
def turn_left (turning_factor : ℝ) (nw : Network) : Network :=
  let tf := max 0 (min 1 turning_factor)
  { nw with
    turning := true
    turning_direction := some TurnDir.left
    turning_factor := tf
    amplitudes := fun i =>
      if i < nw.n then
        (if i % 2 = 0 then nw.amplitude * (1 + tf * 0.5)
         else nw.amplitude * (1 - tf * 0.5))
      else nw.amplitudes i
    frequencies := fun i =>
      if i < nw.n then
        (if i % 2 = 0 then nw.base_frequency * (1 + tf * 0.3)
         else nw.base_frequency * (1 - tf * 0.3))
      else nw.frequencies i }

/-- `stop_turning`: clear the turn flags and restore every in-range
amplitude/frequency to the base values. -/
def stop_turning (nw : Network) : Network :=
  { nw with
    turning := false
    turning_direction := none
    turning_factor := 0
    amplitudes := fun i => if i < nw.n then nw.amplitude else nw.amplitudes i
    frequencies := fun i => if i < nw.n then nw.base_frequency else nw.frequencies i }

/-- `cpg_loconetwork.py` `reset`: reseed the state, restore
amplitudes/frequencies, clear the turn flags; the gait, direction and
matrices are untouched. -/
def reset (nw : Network) : Network :=
  { nw with
    state := init_state nw.n
    amplitudes := fun i => if i < nw.n then nw.amplitude else nw.amplitudes i
    frequencies := fun i => if i < nw.n then nw.base_frequency else nw.frequencies i
    turning := false
    turning_direction := none
    turning_factor := 0 }

/-- `ledlocotest.py` `reset`: same as above but WITHOUT the three
turn-flag assignments (that variant leaves `turning`,
`turning_direction`, `turning_factor` as they were). -/
def reset_led (nw : Network) : Network :=
  { nw with
    state := init_state nw.n
    amplitudes := fun i => if i < nw.n then nw.amplitude else nw.amplitudes i
    frequencies := fun i => if i < nw.n then nw.base_frequency else nw.frequencies i }

/-- The `dx_i` accumulated by `equations` for oscillator `i`: Hopf term
with the per-oscillator amplitude/frequency, plus the coupling sum over
`j in range(n)` guarded by `i != j and coupling_weights[i, j] != 0`. -/
def dx_i (nw : Network) (s : ℕ → ℝ) (i : ℕ) : ℝ :=
  nw.mu * (nw.amplitudes i - (s (2 * i) ^ 2 + s (2 * i + 1) ^ 2)) * s (2 * i)
    - 2 * Real.pi * nw.frequencies i * s (2 * i + 1)
    + ∑ j ∈ Finset.range nw.n,
        if i ≠ j ∧ nw.coupling_weights i j ≠ 0 then
          nw.coupling_weights i j *
            ((s (2 * j) * Real.cos (nw.phase_biases i j) -
              s (2 * j + 1) * Real.sin (nw.phase_biases i j)) - s (2 * i))
        else 0

/-- The `dy_i` accumulated by `equations` for oscillator `i`. -/
def dy_i (nw : Network) (s : ℕ → ℝ) (i : ℕ) : ℝ :=
  nw.mu * (nw.amplitudes i - (s (2 * i) ^ 2 + s (2 * i + 1) ^ 2)) * s (2 * i + 1)
    + 2 * Real.pi * nw.frequencies i * s (2 * i)
    + ∑ j ∈ Finset.range nw.n,
        if i ≠ j ∧ nw.coupling_weights i j ≠ 0 then
          nw.coupling_weights i j *
            ((s (2 * j) * Real.sin (nw.phase_biases i j) +
              s (2 * j + 1) * Real.cos (nw.phase_biases i j)) - s (2 * i + 1))
        else 0

/-- `cpg_loconetwork.py` `equations(state, t)`: the derivative vector,
`np.zeros_like(state)` filled at positions `2*i` and `2*i+1` for
`i in range(n)`.  The time argument is unused, as in the source. -/
def equations (nw : Network) (s : ℕ → ℝ) (_t : ℝ) : ℕ → ℝ :=
  fun k =>
    if k < 2 * nw.n then
      (if k % 2 = 0 then dx_i nw s (k / 2) else dy_i nw s (k / 2))
    else 0

/-- The type of the ODE solver the network delegates to.
Modelled from the spec: the repository integrates with
`scipy.integrate.odeint`, which is not part of the repository's sources;
§4.2 of the spec gives its contract, in particular that a `dt` of `0`
must return the state unchanged (an initial-value solver evaluated at
the initial time returns the initial condition).  A solver takes the
derivative function `(state, t) ↦ derivative`, the current state and the
step `dt`, and returns the final state (`odeint(...)[−1]`). -/
def Solver : Type :=
  ((ℕ → ℝ) → ℝ → ℕ → ℝ) → (ℕ → ℝ) → ℝ → ℕ → ℝ

/-- `update(dt)` with an explicit `dt`: integrate `equations` from the
stored state over `[0, dt]`, store the final state, and return the list
`[state[2*i] for i in range(n)]`. -/
def update (nw : Network) (dt : ℝ) (I : Solver) : Network × List ℝ :=
  let s2 := I (equations nw) nw.state dt
  ({ nw with state := s2 }, (List.range nw.n).map fun i => s2 (2 * i))

/-- A solver that never moves the state; it satisfies the §4.2 `dt = 0`
contract and instantiates witness statements. -/
def constant_solver : Solver := fun _ s _ => s

/-- A single explicit-Euler step, used to exhibit that `update` forwards
an arbitrary (e.g. negative) `dt` to the solver and stores the result. -/
def euler_solver : Solver := fun f s dt => fun k => s k + dt * f s 0 k

/-- `cpg_network_loco.py` `set_tripod_gait`: in that file the gait setters
END after rebuilding the matrices — there is no tail call to
`_update_phase_relationships`, so they are plain total functions. -/
def set_tripod_gait_nl (cs : ℝ) (rd : Bool) (nw : Network) : Network :=
  apply_gait Gait.tripod cs rd nw

/-- `cpg_network_loco.py` `set_wave_gait` (no reapply tail call). -/
def set_wave_gait_nl (cs : ℝ) (rd : Bool) (nw : Network) : Network :=
  apply_gait Gait.wave cs rd nw

/-- `cpg_network_loco.py` `_update_phase_relationships`: rebuild the base
gait (which terminates there), then shift every off-diagonal phase bias
by `direction_phase` mod `2π` when it is nonzero. -/
def update_phase_relationships_nl (nw : Network) : Network :=
  let nw1 :=
    match nw.current_gait with
    | Gait.tripod => set_tripod_gait_nl 1 false nw
    | Gait.wave => set_wave_gait_nl 1 false nw
  if nw1.direction_phase ≠ 0 then
    { nw1 with
      phase_biases := shift_phases nw1.n nw1.direction_phase nw1.phase_biases }
  else nw1

/-- `cpg_network_loco.py` `set_backward`. -/
def set_backward_nl (backward : Bool) (nw : Network) : Network :=
  update_phase_relationships_nl
    { nw with direction_phase := if backward then Real.pi else 0 }

/-- The instance fields of the plain `CoupledOscillatorNetwork` of
`cpg_network.py` (no per-oscillator overrides, no gait/direction/turn
tracking). -/
structure PlainNetwork where
  n : ℕ
  amplitude : ℝ
  omega : ℝ
  mu : ℝ
  state : ℕ → ℝ
  coupling_weights : ℕ → ℕ → ℝ
  phase_biases : ℕ → ℕ → ℝ

/-- `cpg_network.py` `equations`: `dx_i` part, using the global
`self.amplitude` and `self.omega`. -/
def plain_dx_i (pw : PlainNetwork) (s : ℕ → ℝ) (i : ℕ) : ℝ :=
  pw.mu * (pw.amplitude - (s (2 * i) ^ 2 + s (2 * i + 1) ^ 2)) * s (2 * i)
    - pw.omega * s (2 * i + 1)
    + ∑ j ∈ Finset.range pw.n,
        if i ≠ j ∧ pw.coupling_weights i j ≠ 0 then
          pw.coupling_weights i j *
            ((s (2 * j) * Real.cos (pw.phase_biases i j) -
              s (2 * j + 1) * Real.sin (pw.phase_biases i j)) - s (2 * i))
        else 0

/-- `cpg_network.py` `equations`: `dy_i` part. -/
def plain_dy_i (pw : PlainNetwork) (s : ℕ → ℝ) (i : ℕ) : ℝ :=
  pw.mu * (pw.amplitude - (s (2 * i) ^ 2 + s (2 * i + 1) ^ 2)) * s (2 * i + 1)
    + pw.omega * s (2 * i)
    + ∑ j ∈ Finset.range pw.n,
        if i ≠ j ∧ pw.coupling_weights i j ≠ 0 then
          pw.coupling_weights i j *
            ((s (2 * j) * Real.sin (pw.phase_biases i j) +
              s (2 * j + 1) * Real.cos (pw.phase_biases i j)) - s (2 * i + 1))
        else 0

/-- `cpg_network.py` `equations(state, t)`. -/
def plain_equations (pw : PlainNetwork) (s : ℕ → ℝ) (_t : ℝ) : ℕ → ℝ :=
  fun k =>
    if k < 2 * pw.n then
      (if k % 2 = 0 then plain_dx_i pw s (k / 2) else plain_dy_i pw s (k / 2))
    else 0

/-- `cpg_network.py` `update(dt)` with an explicit `dt`. -/
def plain_update (pw : PlainNetwork) (dt : ℝ) (I : Solver) : PlainNetwork × List ℝ :=
  let s2 := I (plain_equations pw) pw.state dt
  ({ pw with state := s2 }, (List.range pw.n).map fun i => s2 (2 * i))

/-- `cpg_network.py` `__init__` just before its final
`self.set_tripod_gait()` call (`omega = 2 * np.pi * frequency`). -/
def plain_init_base (n : ℕ) (amplitude frequency mu : ℝ) : PlainNetwork :=
  { n := n
    amplitude := amplitude
    omega := 2 * Real.pi * frequency
    mu := mu
    state := init_state n
    coupling_weights := fun _ _ => 0
    phase_biases := fun _ _ => 0 }

/-- The matrix invariant claimed for every reachable state: both matrices
have zero diagonal, coupling weights are nonnegative, and every phase
bias lies in `[0, 2π)`. -/
def MatrixInv (nw : Network) : Prop :=
  (∀ i, nw.coupling_weights i i = 0) ∧
  (∀ i j, 0 ≤ nw.coupling_weights i j) ∧
  (∀ i, nw.phase_biases i i = 0) ∧
  (∀ i j, 0 ≤ nw.phase_biases i j ∧ nw.phase_biases i j < 2 * Real.pi)

/-- States of the `cpg_loconetwork.py` network reachable by any finite
sequence of the documented API calls, with no restriction on the
`coupling_strength` argument (any float, as the claim reads). -/
inductive ReachableRaw : Network → Prop
  | init (fuel n : ℕ) (a f m : ℝ) (nw : Network) :
      init_fuel fuel n a f m = some nw → ReachableRaw nw
  | tick (nw : Network) (dt : ℝ) (I : Solver) :
      ReachableRaw nw → ReachableRaw (update nw dt I).1
  | gait (nw nw2 : Network) (fuel : ℕ) (g : Gait) (cs : ℝ) (rd : Bool) :
      ReachableRaw nw → set_gait_fuel fuel g cs rd nw = some nw2 → ReachableRaw nw2
  | backward (nw nw2 : Network) (fuel : ℕ) (b : Bool) :
      ReachableRaw nw → set_backward_fuel fuel b nw = some nw2 → ReachableRaw nw2
  | turnR (nw : Network) (tf : ℝ) :
      ReachableRaw nw → ReachableRaw (turn_right tf nw)
  | turnL (nw : Network) (tf : ℝ) :
      ReachableRaw nw → ReachableRaw (turn_left tf nw)
  | stopT (nw : Network) :
      ReachableRaw nw → ReachableRaw (stop_turning nw)
  | res (nw : Network) :
      ReachableRaw nw → ReachableRaw (reset nw)

/-- Reachability restricted to gait applications with non-negative
`coupling_strength` (the amendment the counterexample forces). -/
inductive Reachable : Network → Prop
  | init (fuel n : ℕ) (a f m : ℝ) (nw : Network) :
      init_fuel fuel n a f m = some nw → Reachable nw
  | tick (nw : Network) (dt : ℝ) (I : Solver) :
      Reachable nw → Reachable (update nw dt I).1
  | gait (nw nw2 : Network) (fuel : ℕ) (g : Gait) (cs : ℝ) (rd : Bool) :
      Reachable nw → 0 ≤ cs → set_gait_fuel fuel g cs rd nw = some nw2 → Reachable nw2
  | backward (nw nw2 : Network) (fuel : ℕ) (b : Bool) :
      Reachable nw → set_backward_fuel fuel b nw = some nw2 → Reachable nw2
  | turnR (nw : Network) (tf : ℝ) :
      Reachable nw → Reachable (turn_right tf nw)
  | turnL (nw : Network) (tf : ℝ) :
      Reachable nw → Reachable (turn_left tf nw)
  | stopT (nw : Network) :
      Reachable nw → Reachable (stop_turning nw)
  | res (nw : Network) :
      Reachable nw → Reachable (reset nw)

lemma apply_gait_dp (g : Gait) (cs : ℝ) (rd : Bool) (nw : Network) :
    (apply_gait g cs rd nw).direction_phase = if rd then 0 else nw.direction_phase :=
  rfl

lemma set_gait_fuel_succ (fuel : ℕ) (g : Gait) (cs : ℝ) (rd : Bool) (nw : Network) :
    set_gait_fuel (fuel + 1) g cs rd nw =
      if (apply_gait g cs rd nw).direction_phase ≠ 0 then
        update_phase_relationships_fuel fuel (apply_gait g cs rd nw)
      else some (apply_gait g cs rd nw) :=
  rfl

lemma upr_fuel_succ (fuel : ℕ) (nw : Network) :
    update_phase_relationships_fuel (fuel + 1) nw =
      (set_gait_fuel fuel nw.current_gait 1 false nw).map fun nw1 =>
        if nw1.direction_phase ≠ 0 then
          { nw1 with
            phase_biases := shift_phases nw1.n nw1.direction_phase nw1.phase_biases }
        else nw1 :=
  rfl

/-- With a nonzero `direction_phase`, `_update_phase_relationships` and the
gait setters called with `reset_direction=False` call each other forever:
no finite call-stack fuel produces a result. -/
lemma stuck_of_dp_ne :
    ∀ fuel : ℕ,
      (∀ nw : Network, nw.direction_phase ≠ 0 →
        update_phase_relationships_fuel fuel nw = none) ∧
      (∀ (g : Gait) (cs : ℝ) (nw : Network), nw.direction_phase ≠ 0 →
        set_gait_fuel fuel g cs false nw = none) := by
  intro fuel
  induction fuel with
  | zero => exact ⟨fun nw _ => rfl, fun g cs nw _ => rfl⟩
  | succ fuel ih =>
    constructor
    · intro nw hdp
      rw [upr_fuel_succ, ih.2 nw.current_gait 1 nw hdp]
      rfl
    · intro g cs nw hdp
      have h2 : (apply_gait g cs false nw).direction_phase ≠ 0 := by
        rw [apply_gait_dp]
        simpa using hdp
      rw [set_gait_fuel_succ, if_pos h2]
      exact ih.1 _ h2

/-- Claim C1: falsified by `cpg_loconetwork.py` / `ledlocotest.py`.
`set_backward(True)` sets `direction_phase = π` and calls
`_update_phase_relationships`, which calls `set_*_gait(reset_direction=False)`,
whose trailing `if self.direction_phase != 0` re-invokes
`_update_phase_relationships` — infinite mutual recursion.  Whatever the
starting network and however much call-stack fuel is provided, the call
never returns a result (a Python `RecursionError`). -/
theorem set_backward_true_never_terminates (fuel : ℕ) (nw : Network) :
    set_backward_fuel fuel true nw = none := by
  cases fuel with
  | zero => rfl
  | succ fuel =>
    have h : ({ nw with direction_phase := Real.pi } : Network).direction_phase ≠ 0 :=
      Real.pi_ne_zero
    exact (stuck_of_dp_ne fuel).1 _ h

lemma pymod_zero_add_pi : pymod (0 + Real.pi) (2 * Real.pi) = Real.pi := by
  have hdiv : (0 + Real.pi) / (2 * Real.pi) = 1 / 2 := by
    rw [zero_add]
    rw [div_eq_iff (by positivity : (2 * Real.pi) ≠ 0)]
    ring
  have hfl : Int.floor ((0 + Real.pi) / (2 * Real.pi)) = 0 := by
    rw [hdiv]
    exact Int.floor_eq_zero_iff.mpr (by constructor <;> norm_num)
  unfold pymod
  rw [hfl]
  push_cast
  ring

/-- Claim C2: falsified by both cited sources.  In
`cpg_loconetwork.py` / `ledlocotest.py`, a gait setter invoked with
`reset_direction=False` while `direction_phase = π` never terminates
(same mutual recursion as C1).  In `cpg_network_loco.py` the call
terminates, but the resulting phase-bias matrix is the plain base gait
matrix — the π direction shift is NOT reapplied (at entry (0,2) of a
tripod on n > 2 oscillators the code leaves 0 where the claim demands
the shifted value π), although `direction_phase` itself stays π. -/
theorem gait_switch_preserving_direction_bug (fuel : ℕ) (cs : ℝ) (nw : Network)
    (hdp : nw.direction_phase = Real.pi) :
    (set_gait_fuel fuel Gait.tripod cs false nw = none ∧
     set_gait_fuel fuel Gait.wave cs false nw = none) ∧
    ((set_tripod_gait_nl cs false nw).phase_biases = tripod_phases nw.n ∧
     (set_wave_gait_nl cs false nw).phase_biases = wave_phases nw.n ∧
     (set_tripod_gait_nl cs false nw).direction_phase = Real.pi ∧
     (2 < nw.n →
       (set_tripod_gait_nl cs false nw).phase_biases 0 2 ≠
         shift_phases nw.n Real.pi (tripod_phases nw.n) 0 2)) := by
  have hne : nw.direction_phase ≠ 0 := by
    rw [hdp]; exact Real.pi_ne_zero
  refine ⟨⟨(stuck_of_dp_ne fuel).2 _ cs nw hne, (stuck_of_dp_ne fuel).2 _ cs nw hne⟩,
    rfl, rfl, hdp, ?_⟩
  intro hn
  have hbase : (set_tripod_gait_nl cs false nw).phase_biases 0 2 = 0 := by
    show tripod_phases nw.n 0 2 = 0
    unfold tripod_phases
    rw [if_pos ⟨by omega, hn, by omega⟩]
    norm_num
  have hshift : shift_phases nw.n Real.pi (tripod_phases nw.n) 0 2 = Real.pi := by
    unfold shift_phases
    rw [if_pos ⟨by omega, hn, by omega⟩]
    have : tripod_phases nw.n 0 2 = 0 := by
      unfold tripod_phases
      rw [if_pos ⟨by omega, hn, by omega⟩]
      norm_num
    rw [this, pymod_zero_add_pi]
  rw [hbase, hshift]
  exact fun h => Real.pi_ne_zero h.symm

/-- Witness for C2 at a concrete input: a default 6-oscillator tripod
network whose direction phase has been set to π. -/
theorem gait_switch_bug_witness :
    set_gait_fuel 5 Gait.tripod 1 false
        { init_base 6 1 1 1 with direction_phase := Real.pi } = none ∧
    (set_tripod_gait_nl 1 false
        { init_base 6 1 1 1 with direction_phase := Real.pi }).phase_biases 0 2 ≠
      shift_phases ({ init_base 6 1 1 1 with direction_phase := Real.pi } : Network).n
        Real.pi
        (tripod_phases ({ init_base 6 1 1 1 with direction_phase := Real.pi } : Network).n)
        0 2 := by
  have h := gait_switch_preserving_direction_bug 5 1
    { init_base 6 1 1 1 with direction_phase := Real.pi } rfl
  exact ⟨h.1.1, h.2.2.2.2 (by norm_num [init_base])⟩

/-- Claim C3: applying a gait with forward direction
(`reset_direction=True`) terminates and produces coupling weights equal
to `coupling_strength` off-diagonal, tripod phase biases `0`/`π` by index
parity, wave phase biases `(2π/n)·((j−i) mod n)`, and zero diagonals. -/
theorem gait_matrices_forward (fuel : ℕ) (cs : ℝ) (nw : Network) :
    set_gait_fuel (fuel + 1) Gait.tripod cs true nw =
        some (apply_gait Gait.tripod cs true nw) ∧
    set_gait_fuel (fuel + 1) Gait.wave cs true nw =
        some (apply_gait Gait.wave cs true nw) ∧
    (∀ i j, i < nw.n → j < nw.n → i ≠ j →
      (apply_gait Gait.tripod cs true nw).coupling_weights i j = cs ∧
      (apply_gait Gait.wave cs true nw).coupling_weights i j = cs ∧
      (apply_gait Gait.tripod cs true nw).phase_biases i j =
        (if i % 2 = j % 2 then 0 else Real.pi) ∧
      (apply_gait Gait.wave cs true nw).phase_biases i j =
        2 * Real.pi / (nw.n : ℝ) * ((((j : ℤ) - (i : ℤ)) % (nw.n : ℤ) : ℤ) : ℝ)) ∧
    (∀ i,
      (apply_gait Gait.tripod cs true nw).coupling_weights i i = 0 ∧
      (apply_gait Gait.wave cs true nw).coupling_weights i i = 0 ∧
      (apply_gait Gait.tripod cs true nw).phase_biases i i = 0 ∧
      (apply_gait Gait.wave cs true nw).phase_biases i i = 0) := by
  have hdpT : (apply_gait Gait.tripod cs true nw).direction_phase = 0 := rfl
  have hdpW : (apply_gait Gait.wave cs true nw).direction_phase = 0 := rfl
  refine ⟨?_, ?_, ?_, ?_⟩
  · rw [set_gait_fuel_succ, if_neg (by rw [hdpT]; simp)]
  · rw [set_gait_fuel_succ, if_neg (by rw [hdpW]; simp)]
  · intro i j hi hj hij
    refine ⟨?_, ?_, ?_, ?_⟩
    · show gait_weights nw.n cs i j = cs
      unfold gait_weights
      rw [if_pos ⟨hi, hj, hij⟩]
    · show gait_weights nw.n cs i j = cs
      unfold gait_weights
      rw [if_pos ⟨hi, hj, hij⟩]
    · show tripod_phases nw.n i j = _
      unfold tripod_phases
      rw [if_pos ⟨hi, hj, hij⟩]
    · show wave_phases nw.n i j = _
      unfold wave_phases
      rw [if_pos ⟨hi, hj, hij⟩]
  · intro i
    refine ⟨?_, ?_, ?_, ?_⟩
    · show gait_weights nw.n cs i i = 0
      unfold gait_weights
      rw [if_neg (by tauto)]
    · show gait_weights nw.n cs i i = 0
      unfold gait_weights
      rw [if_neg (by tauto)]
    · show tripod_phases nw.n i i = 0
      unfold tripod_phases
      rw [if_neg (by tauto)]
    · show wave_phases nw.n i i = 0
      unfold wave_phases
      rw [if_neg (by tauto)]

/-- Witness for C3 on the default 6-oscillator network, coupling
strength 2, entry (0, 1). -/
theorem gait_matrices_forward_witness :
    (apply_gait Gait.tripod 2 true (init_base 6 1 1 1)).coupling_weights 0 1 = 2 ∧
    (apply_gait Gait.tripod 2 true (init_base 6 1 1 1)).phase_biases 0 1 =
      (if 0 % 2 = 1 % 2 then 0 else Real.pi) := by
  have h := (gait_matrices_forward 0 2 (init_base 6 1 1 1)).2.2.1 0 1
    (by norm_num [init_base]) (by norm_num [init_base]) (by norm_num)
  exact ⟨h.1, h.2.2.1⟩

/-- Claim C4: `turn_right` / `turn_left` clamp the factor into `[0, 1]`,
scale even-index ("right") amplitudes by `1 ∓ 0.5·f` and frequencies by
`1 ∓ 0.3·f` (decrease under a right turn, increase under a left turn),
give odd indices the opposite assignment, record the turn state, and
leave gait, direction, both matrices and the state vector untouched. -/
theorem turn_modulation (nw : Network) (factor : ℝ) (i : ℕ) (hi : i < nw.n) :
    ((turn_right factor nw).amplitudes i =
      (if i % 2 = 0 then nw.amplitude * (1 - max 0 (min 1 factor) * 0.5)
       else nw.amplitude * (1 + max 0 (min 1 factor) * 0.5))) ∧
    ((turn_right factor nw).frequencies i =
      (if i % 2 = 0 then nw.base_frequency * (1 - max 0 (min 1 factor) * 0.3)
       else nw.base_frequency * (1 + max 0 (min 1 factor) * 0.3))) ∧
    ((turn_left factor nw).amplitudes i =
      (if i % 2 = 0 then nw.amplitude * (1 + max 0 (min 1 factor) * 0.5)
       else nw.amplitude * (1 - max 0 (min 1 factor) * 0.5))) ∧
    ((turn_left factor nw).frequencies i =
      (if i % 2 = 0 then nw.base_frequency * (1 + max 0 (min 1 factor) * 0.3)
       else nw.base_frequency * (1 - max 0 (min 1 factor) * 0.3))) ∧
    (0 ≤ max 0 (min 1 factor) ∧ max 0 (min 1 factor) ≤ 1) ∧
    ((turn_right factor nw).turning = true ∧
     (turn_right factor nw).turning_direction = some TurnDir.right ∧
     (turn_right factor nw).turning_factor = max 0 (min 1 factor) ∧
     (turn_left factor nw).turning = true ∧
     (turn_left factor nw).turning_direction = some TurnDir.left ∧
     (turn_left factor nw).turning_factor = max 0 (min 1 factor)) ∧
    ((turn_right factor nw).current_gait = nw.current_gait ∧
     (turn_right factor nw).direction_phase = nw.direction_phase ∧
     (turn_right factor nw).coupling_weights = nw.coupling_weights ∧
     (turn_right factor nw).phase_biases = nw.phase_biases ∧
     (turn_right factor nw).state = nw.state ∧
     (turn_left factor nw).current_gait = nw.current_gait ∧
     (turn_left factor nw).direction_phase = nw.direction_phase ∧
     (turn_left factor nw).coupling_weights = nw.coupling_weights ∧
     (turn_left factor nw).phase_biases = nw.phase_biases ∧
     (turn_left factor nw).state = nw.state) := by
  refine ⟨?_, ?_, ?_, ?_,
    ⟨le_max_left _ _, max_le (by norm_num) (min_le_left _ _)⟩,
    ⟨rfl, rfl, rfl, rfl, rfl, rfl⟩,
    ⟨rfl, rfl, rfl, rfl, rfl, rfl, rfl, rfl, rfl, rfl⟩⟩ <;>
  · show (if i < nw.n then _ else _) = _
    rw [if_pos hi]

/-- Witness for C4: the default 6-oscillator network, factor 2 (clamped
to 1), oscillator 0. -/
theorem turn_modulation_witness :
    (turn_right 2 (init_base 6 1 1 1)).amplitudes 0 =
      (if 0 % 2 = 0 then
        (init_base 6 1 1 1).amplitude * (1 - max 0 (min 1 2) * 0.5)
       else (init_base 6 1 1 1).amplitude * (1 + max 0 (min 1 2) * 0.5)) ∧
    (turn_right 2 (init_base 6 1 1 1)).turning = true := by
  have h := turn_modulation (init_base 6 1 1 1) 2 0 (by norm_num [init_base])
  exact ⟨h.1, h.2.2.2.2.2.1.1⟩

/-- Claim C5: `update(dt=0)` is a no-op.  For any solver satisfying the
§4.2 contract that a zero step returns the state unchanged (true of
`odeint`, which at `t = [0, 0]` returns the initial condition), the
network record is unchanged by `update(0)` and its return value equals
the return value of the immediately preceding tick. -/
theorem tick_zero_noop (nw : Network) (dt : ℝ) (I : Solver)
    (hI : ∀ f s, I f s 0 = s) :
    (update nw 0 I).1 = nw ∧
    (update (update nw dt I).1 0 I).1 = (update nw dt I).1 ∧
    (update (update nw dt I).1 0 I).2 = (update nw dt I).2 := by
  have h1 : ∀ m : Network, (update m 0 I).1 = m := by
    intro m
    show ({ m with state := I (equations m) m.state 0 } : Network) = m
    rw [hI]
  refine ⟨h1 nw, h1 _, ?_⟩
  show ((List.range (update nw dt I).1.n).map fun i =>
      I (equations (update nw dt I).1) (update nw dt I).1.state 0 (2 * i)) = _
  simp only [hI]
  rfl

/-- Witness for C5: default network, a preceding tick of `dt = 1`, and a
solver satisfying the zero-step contract. -/
theorem tick_zero_noop_witness :
    (update (init_base 6 1 1 1) 0 constant_solver).1 = init_base 6 1 1 1 ∧
    (update (update (init_base 6 1 1 1) 1 constant_solver).1 0 constant_solver).1 =
      (update (init_base 6 1 1 1) 1 constant_solver).1 ∧
    (update (update (init_base 6 1 1 1) 1 constant_solver).1 0 constant_solver).2 =
      (update (init_base 6 1 1 1) 1 constant_solver).2 :=
  tick_zero_noop (init_base 6 1 1 1) 1 constant_solver (fun _ _ => rfl)

lemma init_fuel_succ (fuel n : ℕ) (a f m : ℝ) :
    init_fuel (fuel + 1) n a f m =
      some (apply_gait Gait.tripod 1 true (init_base n a f m)) := by
  unfold init_fuel
  rw [set_gait_fuel_succ, if_neg (by rw [apply_gait_dp]; simp)]

/-- Claim C6 amended: the code performs no validation.  `__init__` with
`n_oscillators = 0` succeeds (the gait loops run over an empty range and
the result is a normal network object with `n = 0`), and `update`
forwards any explicitly passed `dt` — negative included — straight to
the solver and stores whatever comes back. -/
theorem no_input_validation (a f m : ℝ) (fuel : ℕ) (nw : Network)
    (dt : ℝ) (I : Solver) :
    init_fuel (fuel + 1) 0 a f m =
      some (apply_gait Gait.tripod 1 true (init_base 0 a f m)) ∧
    (apply_gait Gait.tripod 1 true (init_base 0 a f m)).n = 0 ∧
    (update nw dt I).1.state = I (equations nw) nw.state dt :=
  ⟨init_fuel_succ fuel 0 a f m, rfl, rfl⟩

/-- Counterexample to C6 as stated: constructing with `n = 0` is NOT
rejected (it returns a network with `n = 0`), and `update` with
`dt = −1` is NOT rejected — with an explicit one-step Euler solver the
stored state of a 1-oscillator network moves from `0.1` to `0.001`. -/
theorem invalid_config_accepted :
    init_fuel 1 0 1 1 1 = some (apply_gait Gait.tripod 1 true (init_base 0 1 1 1)) ∧
    (apply_gait Gait.tripod 1 true (init_base 0 1 1 1)).n = 0 ∧
    (init_base 1 1 1 1).state 0 = 0.1 ∧
    (update (init_base 1 1 1 1) (-1) euler_solver).1.state 0 = 0.001 := by
  refine ⟨init_fuel_succ 0 0 1 1 1, rfl,
    by norm_num [init_base, init_state], ?_⟩
  show euler_solver (equations (init_base 1 1 1 1)) (init_base 1 1 1 1).state (-1) 0 = 0.001
  unfold euler_solver equations dx_i
  norm_num [init_base, init_state, Finset.sum_range_one]

/-- Claim C7 amended: `reset` in `cpg_loconetwork.py` reseeds every
oscillator state to (0.1, 0), restores every in-range amplitude and
frequency to the base values, and clears the turn state, while leaving
the current gait, direction phase and both matrices unchanged; the
`ledlocotest.py` variant of `reset` restores state, amplitudes and
frequencies but leaves the three turning flags unchanged. -/
theorem reset_effects (nw : Network) :
    (reset nw).state = init_state nw.n ∧
    (∀ i, i < nw.n → (reset nw).amplitudes i = nw.amplitude ∧
      (reset nw).frequencies i = nw.base_frequency) ∧
    (reset nw).turning = false ∧
    (reset nw).turning_direction = none ∧
    (reset nw).turning_factor = 0 ∧
    (reset nw).current_gait = nw.current_gait ∧
    (reset nw).direction_phase = nw.direction_phase ∧
    (reset nw).coupling_weights = nw.coupling_weights ∧
    (reset nw).phase_biases = nw.phase_biases ∧
    (reset_led nw).state = init_state nw.n ∧
    (∀ i, i < nw.n → (reset_led nw).amplitudes i = nw.amplitude ∧
      (reset_led nw).frequencies i = nw.base_frequency) ∧
    (reset_led nw).turning = nw.turning ∧
    (reset_led nw).turning_direction = nw.turning_direction ∧
    (reset_led nw).turning_factor = nw.turning_factor := by
  refine ⟨rfl, ?_, rfl, rfl, rfl, rfl, rfl, rfl, rfl, rfl, ?_, rfl, rfl, rfl⟩ <;>
  · intro i hi
    constructor
    · show (if i < nw.n then _ else _) = _
      rw [if_pos hi]
    · show (if i < nw.n then _ else _) = _
      rw [if_pos hi]

/-- Witness for C7: a turned default network. -/
theorem reset_effects_witness :
    (reset (turn_right 0.5 (init_base 6 1 1 1))).amplitudes 0 =
      (turn_right 0.5 (init_base 6 1 1 1)).amplitude ∧
    (reset (turn_right 0.5 (init_base 6 1 1 1))).turning = false := by
  have h := reset_effects (turn_right 0.5 (init_base 6 1 1 1))
  exact ⟨(h.2.1 0 (by norm_num [turn_right, init_base])).1, h.2.2.1⟩

/-- Counterexample to C7 as stated: `ledlocotest.py`'s `reset` does NOT
clear the turn state — after `turn_right(0.3)` and `reset()` the network
still reports that it is turning right. -/
theorem reset_led_keeps_turning :
    (reset_led (turn_right 0.3 (init_base 6 1 1 1))).turning = true ∧
    (reset_led (turn_right 0.3 (init_base 6 1 1 1))).turning_direction =
      some TurnDir.right :=
  ⟨rfl, rfl⟩

/-- Claim C10: when every per-oscillator frequency equals the base
frequency and every per-oscillator amplitude equals the base amplitude,
the derivative function of `cpg_loconetwork.py` coincides pointwise with
the derivative function of the plain `cpg_network.py` network (for equal
n, μ, state, ω = 2π·frequency and equal matrices), and hence the two
`update` operations produce the same new state and the same outputs. -/
theorem loco_plain_equivalence (nw : Network) (pw : PlainNetwork)
    (hn : pw.n = nw.n) (ha : pw.amplitude = nw.amplitude)
    (hw : pw.omega = 2 * Real.pi * nw.base_frequency) (hm : pw.mu = nw.mu)
    (hcw : pw.coupling_weights = nw.coupling_weights)
    (hpb : pw.phase_biases = nw.phase_biases)
    (hs : pw.state = nw.state)
    (hf : ∀ i, i < nw.n → nw.frequencies i = nw.base_frequency)
    (hamp : ∀ i, i < nw.n → nw.amplitudes i = nw.amplitude) :
    (∀ (s : ℕ → ℝ) (t : ℝ) (k : ℕ), equations nw s t k = plain_equations pw s t k) ∧
    (∀ (dt : ℝ) (I : Solver),
      (update nw dt I).1.state = (plain_update pw dt I).1.state ∧
      (update nw dt I).2 = (plain_update pw dt I).2) := by
  have heq : ∀ (s : ℕ → ℝ) (t : ℝ) (k : ℕ),
      equations nw s t k = plain_equations pw s t k := by
    intro s t k
    unfold equations plain_equations
    rw [hn]
    by_cases hk : k < 2 * nw.n
    · rw [if_pos hk, if_pos hk]
      have hk2 : k / 2 < nw.n := by omega
      by_cases hpar : k % 2 = 0
      · rw [if_pos hpar, if_pos hpar]
        unfold dx_i plain_dx_i
        rw [hn, ha, hw, hm, hcw, hpb, hamp _ hk2, hf _ hk2]
      · rw [if_neg hpar, if_neg hpar]
        unfold dy_i plain_dy_i
        rw [hn, ha, hw, hm, hcw, hpb, hamp _ hk2, hf _ hk2]
    · rw [if_neg hk, if_neg hk]
  have heqf : equations nw = plain_equations pw :=
    funext fun s => funext fun t => funext fun k => heq s t k
  refine ⟨heq, fun dt I => ⟨?_, ?_⟩⟩
  · show I (equations nw) nw.state dt = I (plain_equations pw) pw.state dt
    rw [heqf, hs]
  · show ((List.range nw.n).map fun i => I (equations nw) nw.state dt (2 * i)) =
      ((List.range pw.n).map fun i => I (plain_equations pw) pw.state dt (2 * i))
    rw [heqf, hs, hn]

/-- Witness for C10: the two freshly constructed base networks. -/
theorem loco_plain_equivalence_witness :
    equations (init_base 6 1 1 1) (fun _ => 0) 0 0 =
      plain_equations (plain_init_base 6 1 1 1) (fun _ => 0) 0 0 :=
  (loco_plain_equivalence (init_base 6 1 1 1) (plain_init_base 6 1 1 1)
    rfl rfl rfl rfl rfl rfl rfl
    (fun _ hi => if_pos hi) (fun _ hi => if_pos hi)).1 (fun _ => 0) 0 0

lemma pymod_eq_fract (x y : ℝ) (hy : y ≠ 0) :
    pymod x y = y * Int.fract (x / y) := by
  unfold pymod Int.fract
  rw [mul_sub, mul_div_cancel₀ x hy]

lemma pymod_nonneg (x : ℝ) {y : ℝ} (hy : 0 < y) : 0 ≤ pymod x y := by
  rw [pymod_eq_fract x y hy.ne']
  exact mul_nonneg hy.le (Int.fract_nonneg _)

lemma pymod_lt (x : ℝ) {y : ℝ} (hy : 0 < y) : pymod x y < y := by
  rw [pymod_eq_fract x y hy.ne']
  calc y * Int.fract (x / y) < y * 1 := mul_lt_mul_of_pos_left (Int.fract_lt_one _) hy
    _ = y := mul_one y

lemma tripod_phases_mem (n i j : ℕ) :
    0 ≤ tripod_phases n i j ∧ tripod_phases n i j < 2 * Real.pi := by
  unfold tripod_phases
  split_ifs
  · exact ⟨le_refl 0, Real.two_pi_pos⟩
  · exact ⟨Real.pi_pos.le, by linarith [Real.pi_pos]⟩
  · exact ⟨le_refl 0, Real.two_pi_pos⟩

lemma wave_phases_mem (n i j : ℕ) :
    0 ≤ wave_phases n i j ∧ wave_phases n i j < 2 * Real.pi := by
  unfold wave_phases
  split_ifs with h
  · obtain ⟨hi, hj, hij⟩ := h
    have hn : 0 < n := lt_of_le_of_lt (Nat.zero_le i) hi
    have hnz : ((n : ℤ)) ≠ 0 := by exact_mod_cast hn.ne'
    have hk0 : (0 : ℤ) ≤ ((j : ℤ) - (i : ℤ)) % (n : ℤ) := Int.emod_nonneg _ hnz
    have hkn : ((j : ℤ) - (i : ℤ)) % (n : ℤ) < (n : ℤ) :=
      Int.emod_lt_of_pos _ (by exact_mod_cast hn)
    have hcoef : 0 < 2 * Real.pi / (n : ℝ) :=
      div_pos Real.two_pi_pos (by exact_mod_cast hn)
    constructor
    · exact mul_nonneg hcoef.le (by exact_mod_cast hk0)
    · have hklt : (((((j : ℤ) - (i : ℤ)) % (n : ℤ)) : ℤ) : ℝ) < (n : ℝ) := by
        exact_mod_cast hkn
      calc 2 * Real.pi / (n : ℝ) * (((((j : ℤ) - (i : ℤ)) % (n : ℤ)) : ℤ) : ℝ)
          < 2 * Real.pi / (n : ℝ) * (n : ℝ) := mul_lt_mul_of_pos_left hklt hcoef
        _ = 2 * Real.pi := by
            field_simp
  · exact ⟨le_refl 0, Real.two_pi_pos⟩

lemma apply_gait_matrix_inv (g : Gait) (cs : ℝ) (rd : Bool) (nw : Network)
    (hcs : 0 ≤ cs) : MatrixInv (apply_gait g cs rd nw) := by
  refine ⟨?_, ?_, ?_, ?_⟩
  · intro i
    show gait_weights nw.n cs i i = 0
    unfold gait_weights
    rw [if_neg (by tauto)]
  · intro i j
    show 0 ≤ gait_weights nw.n cs i j
    unfold gait_weights
    split_ifs
    · exact hcs
    · exact le_refl 0
  · intro i
    cases g
    · show tripod_phases nw.n i i = 0
      unfold tripod_phases
      rw [if_neg (by tauto)]
    · show wave_phases nw.n i i = 0
      unfold wave_phases
      rw [if_neg (by tauto)]
  · intro i j
    cases g
    · exact tripod_phases_mem nw.n i j
    · exact wave_phases_mem nw.n i j

lemma shift_phases_inv (n : ℕ) (dp : ℝ) (pb : ℕ → ℕ → ℝ)
    (hdiag : ∀ i, pb i i = 0)
    (hmem : ∀ i j, 0 ≤ pb i j ∧ pb i j < 2 * Real.pi) :
    (∀ i, shift_phases n dp pb i i = 0) ∧
    (∀ i j, 0 ≤ shift_phases n dp pb i j ∧ shift_phases n dp pb i j < 2 * Real.pi) := by
  constructor
  · intro i
    unfold shift_phases
    rw [if_neg (by tauto)]
    exact hdiag i
  · intro i j
    unfold shift_phases
    split_ifs
    · exact ⟨pymod_nonneg _ Real.two_pi_pos, pymod_lt _ Real.two_pi_pos⟩
    · exact hmem i j

/-- Every `some` result of the (fueled) gait setters or of
`_update_phase_relationships`, given a nonnegative coupling strength,
satisfies the matrix invariant: the matrices are rebuilt wholesale and
then at most shifted mod 2π. -/
lemma fueled_gait_matrix_inv :
    ∀ fuel : ℕ,
      (∀ nw nw2 : Network,
        update_phase_relationships_fuel fuel nw = some nw2 → MatrixInv nw2) ∧
      (∀ (g : Gait) (cs : ℝ) (rd : Bool) (nw nw2 : Network), 0 ≤ cs →
        set_gait_fuel fuel g cs rd nw = some nw2 → MatrixInv nw2) := by
  intro fuel
  induction fuel with
  | zero =>
    constructor
    · intro _ _ h
      cases h
    · intro _ _ _ _ _ _ h
      cases h
  | succ fuel ih =>
    constructor
    · intro nw nw2 h
      rw [upr_fuel_succ] at h
      cases hg : set_gait_fuel fuel nw.current_gait 1 false nw with
      | none => rw [hg] at h; cases h
      | some nw1 =>
        rw [hg, Option.map_some'] at h
        have hinv1 : MatrixInv nw1 := ih.2 _ 1 false nw nw1 (by norm_num) hg
        have h2 := Option.some.inj h
        by_cases hdp : nw1.direction_phase ≠ 0
        · rw [if_pos hdp] at h2
          rw [← h2]
          obtain ⟨hw0, hwpos, hp0, hpm⟩ := hinv1
          have hs := shift_phases_inv nw1.n nw1.direction_phase nw1.phase_biases hp0 hpm
          exact ⟨hw0, hwpos, hs.1, hs.2⟩
        · rw [if_neg hdp] at h2
          rw [← h2]
          exact hinv1
    · intro g cs rd nw nw2 hcs h
      rw [set_gait_fuel_succ] at h
      by_cases hdp : (apply_gait g cs rd nw).direction_phase ≠ 0
      · rw [if_pos hdp] at h
        exact ih.1 _ _ h
      · rw [if_neg hdp] at h
        have h2 := Option.some.inj h
        rw [← h2]
        exact apply_gait_matrix_inv g cs rd nw hcs

/-- Claim C8 amended: in every state reachable by construction, ticking,
gait applications with NONNEGATIVE coupling strength, direction changes,
turning, stop_turning and reset, both matrices have zero diagonal, every
coupling weight is ≥ 0, and every phase bias lies in [0, 2π). -/
theorem reachable_matrix_invariant (nw : Network) (h : Reachable nw) :
    MatrixInv nw := by
  induction h with
  | init fuel n a f m nw h => exact (fueled_gait_matrix_inv fuel).2 _ 1 true _ _ (by norm_num) h
  | tick nw dt I _ ih => exact ih
  | gait nw nw2 fuel g cs rd _ hcs h ih => exact (fueled_gait_matrix_inv fuel).2 _ _ _ _ _ hcs h
  | backward nw nw2 fuel b _ h ih =>
    cases fuel with
    | zero => cases h
    | succ fuel => exact (fueled_gait_matrix_inv fuel).1 _ _ h
  | turnR nw tf _ ih => exact ih
  | turnL nw tf _ ih => exact ih
  | stopT nw _ ih => exact ih
  | res nw _ ih => exact ih

/-- Witness for C8: the freshly constructed default network is reachable
and satisfies the invariant. -/
theorem reachable_matrix_invariant_witness :
    MatrixInv (apply_gait Gait.tripod 1 true (init_base 6 1 1 1)) :=
  reachable_matrix_invariant _
    (Reachable.init 1 6 1 1 1 _ (init_fuel_succ 0 6 1 1 1))

/-- Counterexample to C8 as stated: `set_tripod_gait` copies its
`coupling_strength` argument verbatim, so a (documented-type, float)
argument of −1 reaches a state — reachable by construction followed by
one gait application — whose off-diagonal coupling weight is negative. -/
theorem negative_coupling_reachable :
    ReachableRaw (apply_gait Gait.tripod (-1) true
      (apply_gait Gait.tripod 1 true (init_base 2 1 1 1))) ∧
    (apply_gait Gait.tripod (-1) true
      (apply_gait Gait.tripod 1 true (init_base 2 1 1 1))).coupling_weights 0 1 < 0 := by
  constructor
  · refine ReachableRaw.gait _ _ 1 Gait.tripod (-1) true
      (ReachableRaw.init 1 2 1 1 1 _ (init_fuel_succ 0 2 1 1 1)) ?_
    rw [set_gait_fuel_succ, if_neg (by rw [apply_gait_dp]; simp)]
  · show gait_weights 2 (-1) 0 1 < 0
    unfold gait_weights
    rw [if_pos ⟨by norm_num, by norm_num, by norm_num⟩]
    norm_num

end CPG
